import Mathlib

/-!
Verification development for the EV-charger ETL pipeline
(`src/transform_data.py`, `src/build_table_files.py`, `main.py`).

The pipeline transforms a raw batch of charger records into a station
dimension, an operator dimension and a fact table.  DataFrames are
embedded as Lean lists of typed rows; polars column operations become
list operations.  The two polars operations whose results are not fully
specified by polars (`DataFrame.unique` without `maintain_order`, which
guarantees neither the row order nor which duplicate row is kept) are
embedded relationally: a predicate characterises every result the
library contract allows, and theorems quantify over those results.
Numeric payload columns (coordinates, plug counts) are never computed
with, only copied, so they are embedded as integers.
-/

/-! ### Whitespace stripping (polars `Expr.str.strip_chars()` with no argument) -/

/-- Whitespace test used by polars string stripping. -/
def wsp (c : Char) : Bool := c.isWhitespace

/-- Drop leading whitespace characters. -/
def dropLead (l : List Char) : List Char := l.dropWhile wsp

/-- Drop trailing whitespace characters. -/
def dropTrail (l : List Char) : List Char := (l.reverse.dropWhile wsp).reverse

/-- Models `pl.col("operator_name").str.strip_chars()`
(transform_data.py, `dim_operator`): remove leading and trailing
whitespace from a string. -/
def stripChars (s : String) : String := String.mk (dropTrail (dropLead s.data))

theorem dropWhile_dropWhile {α : Type} (p : α → Bool) (l : List α) :
    List.dropWhile p (List.dropWhile p l) = List.dropWhile p l := by
  induction l with
  | nil => rfl
  | cons a t ih =>
    by_cases h : p a
    · rw [List.dropWhile_cons_of_pos h]; exact ih
    · rw [List.dropWhile_cons_of_neg h, List.dropWhile_cons_of_neg h]

theorem dropWhile_head_false {α : Type} (p : α → Bool) (l : List α) (a : α)
    (t : List α) (h : List.dropWhile p l = a :: t) : p a = false := by
  induction l with
  | nil => simp at h
  | cons b u ih =>
    by_cases hb : p b
    · rw [List.dropWhile_cons_of_pos hb] at h; exact ih h
    · rw [List.dropWhile_cons_of_neg hb] at h
      cases h
      simpa using hb

theorem dropLead_dropLead (l : List Char) : dropLead (dropLead l) = dropLead l :=
  dropWhile_dropWhile wsp l

theorem dropTrail_dropTrail (l : List Char) :
    dropTrail (dropTrail l) = dropTrail l := by
  unfold dropTrail
  rw [List.reverse_reverse, dropWhile_dropWhile]

theorem dropLead_dropTrail_dropLead (l : List Char) :
    dropLead (dropTrail (dropLead l)) = dropTrail (dropLead l) := by
  cases hm : dropLead l with
  | nil =>
    show dropLead (dropTrail []) = dropTrail []
    rfl
  | cons a t =>
    have ha : wsp a = false := dropWhile_head_false wsp l a t hm
    have hna : ¬ (wsp a = true) := by simp [ha]
    show dropLead (dropTrail (a :: t)) = dropTrail (a :: t)
    unfold dropTrail
    rw [List.reverse_cons, List.dropWhile_append]
    cases hA : List.dropWhile wsp t.reverse with
    | nil =>
      rw [if_pos (by simp)]
      rw [List.dropWhile_cons_of_neg hna]
      show dropLead [a] = [a]
      unfold dropLead
      rw [List.dropWhile_cons_of_neg hna]
    | cons b u =>
      rw [if_neg (by simp)]
      have h2 : ((b :: u) ++ [a]).reverse = a :: (u.reverse ++ [b]) := by simp
      rw [h2]
      unfold dropLead
      rw [List.dropWhile_cons_of_neg hna]

theorem stripChars_stripChars (s : String) :
    stripChars (stripChars s) = stripChars s := by
  show String.mk (dropTrail (dropLead (dropTrail (dropLead s.data)))) =
    String.mk (dropTrail (dropLead s.data))
  rw [dropLead_dropTrail_dropLead, dropTrail_dropTrail]

/-! ### Positional surrogate keys (polars `pl.arange(1, height + 1)`) -/

/-- Pair every list element with its position, counting from `b`.
This embeds `pl.arange(1, df.height + 1)` (with `b = 1`) zipped with
the rows of the frame. -/
def idxFrom {α : Type} : Nat → List α → List (Nat × α)
  | _, [] => []
  | b, a :: t => (b, a) :: idxFrom (b + 1) t

theorem idxFrom_length {α : Type} (b : Nat) (l : List α) :
    (idxFrom b l).length = l.length := by
  induction l generalizing b with
  | nil => rfl
  | cons a t ih => simp [idxFrom, ih]

theorem idxFrom_append {α : Type} (b : Nat) (l₁ l₂ : List α) :
    idxFrom b (l₁ ++ l₂) = idxFrom b l₁ ++ idxFrom (b + l₁.length) l₂ := by
  induction l₁ generalizing b with
  | nil => simp [idxFrom]
  | cons a t ih =>
    show (b, a) :: idxFrom (b + 1) (t ++ l₂) =
      ((b, a) :: idxFrom (b + 1) t) ++ idxFrom (b + (a :: t).length) l₂
    simp only [List.length_cons, List.cons_append]
    rw [ih]
    have h : b + 1 + t.length = b + (t.length + 1) := by omega
    rw [h]

theorem idxFrom_map_fst {α : Type} (b : Nat) (l : List α) :
    (idxFrom b l).map Prod.fst = List.range' b l.length := by
  induction l generalizing b with
  | nil => rfl
  | cons a t ih =>
    show b :: (idxFrom (b + 1) t).map Prod.fst = b :: List.range' (b + 1) t.length
    rw [ih]

theorem idxFrom_getElem? {α : Type} (b : Nat) (l : List α) (i : Nat) :
    (idxFrom b l)[i]? = l[i]?.map (fun a => (b + i, a)) := by
  induction l generalizing b i with
  | nil => simp [idxFrom]
  | cons a t ih =>
    cases i with
    | zero => simp [idxFrom]
    | succ j =>
      simp only [idxFrom, List.getElem?_cons_succ, ih]
      have h : b + 1 + j = b + (j + 1) := by omega
      rw [h]

theorem idxFrom_mem_fst {α : Type} (b : Nat) (l : List α) (p : Nat × α)
    (h : p ∈ idxFrom b l) : b ≤ p.1 ∧ p.1 < b + l.length := by
  induction l generalizing b with
  | nil => simp [idxFrom] at h
  | cons a t ih =>
    simp only [idxFrom, List.mem_cons] at h
    cases h with
    | inl h => subst h; simp
    | inr h =>
      have := ih (b + 1) h
      simp only [List.length_cons]
      omega

theorem idxFrom_mem_snd {α : Type} (b : Nat) (l : List α) (p : Nat × α)
    (h : p ∈ idxFrom b l) : p.2 ∈ l := by
  induction l generalizing b with
  | nil => simp [idxFrom] at h
  | cons a t ih =>
    simp only [idxFrom, List.mem_cons] at h
    cases h with
    | inl h => subst h; simp
    | inr h => exact List.mem_cons_of_mem a (ih (b + 1) h)

/-! ### Row types -/

/-- A raw charger record, one row of `raw_data/fast_chargers.csv`.
Only the `Operator` column is nullable (the code's `fill_null` targets
it); the object identifier is embedded as an integer. -/
structure RawRow where
  objId : Int
  operator : Option String
  stationName : String
  stationAddress : String
  latitude : Int
  longitude : Int
  numStation : Int
  numPlugs : Int
  chademo : Int
  ccsSae : Int
  teslaFast : Int
deriving DecidableEq

/-- A row of the station dimension produced by `dim_station`. -/
structure StationRow where
  station_id : Nat
  station_name : String
  num_of_charging_stations : Int
  lat : Int
  long : Int
deriving DecidableEq

/-- A row of the operator dimension produced by `dim_operator`. -/
structure OperatorRow where
  operator_name : String
  operator_id : Nat
deriving DecidableEq

/-- A row of the fact table produced by `fact_ev_charger`.  The two
foreign keys are optional because the left joins leave them null when
no dimension row matches; the code fills `operator_id` afterwards. -/
structure FactRow where
  charger_id : Int
  station_id : Option Nat
  operator_id : Option Nat
  chademo_plug_count : Int
  ccs_sae_plug_count : Int
  tesla_plug_count : Int
  total_plug_count : Int
deriving DecidableEq

/-! ### `dim_station` (transform_data.py) -/

/-- `dim_station`: select the five station columns, rename them, and
assign `station_id = pl.arange(1, height + 1)`.  No deduplication is
performed (the source has no `unique` call in this function), so there
is one output row per raw input row, in input order. -/
def dim_station (data : List RawRow) : List StationRow :=
  (idxFrom 1 data).map
    (fun p => StationRow.mk p.1 p.2.stationName p.2.numStation p.2.latitude p.2.longitude)

/-! ### `dim_operator` (transform_data.py) -/

/-- Characterises the results polars allows for
`data.select("Operator").unique(subset="Operator")` with the default
`keep="any"`, `maintain_order=False`: one row per distinct value of the
column, in an unspecified order.  `col` is the raw `Operator` column. -/
def isUniqueCol (col uniq : List (Option String)) : Prop :=
  uniq.Nodup ∧ ∀ x, x ∈ uniq ↔ x ∈ col

/-- `fill_null("None")` on a single nullable string cell. -/
def fillNullNone (v : Option String) : String := v.getD "None"

/-- `dim_operator`, parametrised by the list `uniq` that polars'
`unique` returned for the `Operator` column (any `uniq` satisfying
`isUniqueCol col uniq` is a legal result): append the sentinel
`"Unknown"` row, fill nulls with `"None"`, assign
`operator_id = pl.arange(1, height + 1)` and strip whitespace from
every name. -/
def dim_operator (uniq : List (Option String)) : List OperatorRow :=
  (idxFrom 1 (uniq ++ [some "Unknown"])).map
    (fun p => OperatorRow.mk (stripChars (fillNullNone p.2)) p.1)

/-- First-occurrence-order deduplication of a column.  Modelled from
the spec's words for claim C5 ("reduce to distinct values,
first-occurrence order preserved"); the source calls `unique` without
`maintain_order`, which does not promise this order. -/
def distinctFirstSeen (col : List (Option String)) : List (Option String) :=
  col.foldl (fun acc x => if x ∈ acc then acc else acc ++ [x]) []

/-- The operator dimension the spec's wording for claim C5 describes:
distinct raw values in first-seen order, sentinel last. -/
def dim_operator_firstSeen (col : List (Option String)) : List OperatorRow :=
  dim_operator (distinctFirstSeen col)

/-! ### `fact_ev_charger` (transform_data.py) -/

/-- The sentinel lookup
`dim_operator_table.filter(pl.col("operator_name") == "Unknown")["operator_id"][0]`:
the `operator_id` of the *first* dimension row named `"Unknown"`, or
`none` when no such row exists (in which case the python code raises an
index error). -/
def firstUnknownId (dimOp : List OperatorRow) : Option Nat :=
  ((dimOp.filter (fun d => d.operator_name == "Unknown")).head?).map OperatorRow.operator_id

/-- Left-join lookup of one raw row's `Operator` value against the
operator dimension (join key `Operator = operator_name`): the list of
`operator_id` values the join produces for that row — one per matching
dimension row, or a single null when nothing matches.  A null raw key
matches nothing because every dimension `operator_name` is a non-null
string. -/
def opIdsFor (dimOp : List OperatorRow) (key : Option String) : List (Option Nat) :=
  if (dimOp.filter (fun d => some d.operator_name == key)).isEmpty then [none]
  else (dimOp.filter (fun d => some d.operator_name == key)).map (fun d => some d.operator_id)

/-- Left-join lookup of one raw row's `Station name` value against the
station dimension (join key `Station name = station_name`). -/
def stIdsFor (dimSt : List StationRow) (key : String) : List (Option Nat) :=
  if (dimSt.filter (fun d => d.station_name == key)).isEmpty then [none]
  else (dimSt.filter (fun d => d.station_name == key)).map (fun d => some d.station_id)

/-- The renamed and projected fact columns of one joined row
(`charger_id`, `station_id`, `operator_id`, plug counts). -/
def mkFactRow (r : RawRow) (sid oid : Option Nat) : FactRow :=
  FactRow.mk r.objId sid oid r.chademo r.ccsSae r.teslaFast r.numPlugs

/-- All joined rows one raw row contributes after the two left joins:
the cross product of its operator matches and station matches. -/
def rowCandidates (r : RawRow) (dimOp : List OperatorRow) (dimSt : List StationRow) :
    List FactRow :=
  (opIdsFor dimOp r.operator).flatMap
    (fun oid => (stIdsFor dimSt r.stationName).map (fun sid => mkFactRow r sid oid))

/-- The whole joined frame after the two left joins, renaming and
column selection. -/
def joinedCandidates (data : List RawRow) (dimOp : List OperatorRow)
    (dimSt : List StationRow) : List FactRow :=
  data.flatMap (fun r => rowCandidates r dimOp dimSt)

/-- `pl.col("operator_id").fill_null(fid)` on one row. -/
def fillOperator (fid : Nat) (c : FactRow) : FactRow :=
  FactRow.mk c.charger_id c.station_id (some (c.operator_id.getD fid))
    c.chademo_plug_count c.ccs_sae_plug_count c.tesla_plug_count c.total_plug_count

/-- The joined frame after the null `operator_id` values are filled
with the sentinel lookup result `fid`. -/
def filledCandidates (data : List RawRow) (dimOp : List OperatorRow)
    (dimSt : List StationRow) (fid : Nat) : List FactRow :=
  (joinedCandidates data dimOp dimSt).map (fillOperator fid)

/-- Characterises the results polars allows for
`.unique(subset="charger_id")` with the defaults `keep="any"`,
`maintain_order=False`: a selection of rows of the input containing
exactly one row per distinct `charger_id`, with no guarantee about
which row of a duplicate group is kept nor about the order. -/
def uniqueByCharger (l u : List FactRow) : Prop :=
  (u.map FactRow.charger_id).Nodup ∧ (∀ c ∈ u, c ∈ l) ∧
    ∀ c ∈ l, ∃ c2 ∈ u, c2.charger_id = c.charger_id

instance uniqueByCharger.instDecidable (l u : List FactRow) :
    Decidable (uniqueByCharger l u) := by
  unfold uniqueByCharger
  infer_instance

/-- Row comparison used by `.sort("charger_id", descending=False)`. -/
def factLe (a b : FactRow) : Prop := a.charger_id ≤ b.charger_id

instance : DecidableRel factLe :=
  fun a b => inferInstanceAs (Decidable (a.charger_id ≤ b.charger_id))

instance : IsTotal FactRow factLe :=
  ⟨fun a b => le_total a.charger_id b.charger_id⟩

instance : IsTrans FactRow factLe :=
  ⟨fun _ _ _ h1 h2 => le_trans h1 h2⟩

/-- `.sort("charger_id", descending=False)`.  Any sorting algorithm
produces the same result here because `unique` leaves the keys
pairwise distinct. -/
def sortByCharger (l : List FactRow) : List FactRow := List.insertionSort factLe l

/-- `fact_ev_charger data dimOp dimSt out` holds iff `out` is a result
the source's `fact_ev_charger(data, dim_operator_table, dim_station_table)`
can return: join, rename, select, fill null `operator_id` with the
first-`"Unknown"` lookup, deduplicate by `charger_id` (any legal
`unique` outcome), and sort ascending by `charger_id`.  When the
operator dimension has no `"Unknown"` row the lookup raises, so no
`out` is related. -/
def fact_ev_charger (data : List RawRow) (dimOp : List OperatorRow)
    (dimSt : List StationRow) (out : List FactRow) : Prop :=
  ∃ fid u, firstUnknownId dimOp = some fid ∧
    uniqueByCharger (filledCandidates data dimOp dimSt fid) u ∧
    out = sortByCharger u

/-! ### Control-flow and error model (build_table_files.py, main.py)

The file-writing layer is modelled at the level of which columns the
input frame has and which output files get written.  Polars raises
`ColumnNotFoundError` when `select` or a join key names an absent
column, and `SchemaFieldNotFoundError` when `rename` maps an absent
column; both are direct subclasses of `PolarsError`, *siblings* of
`SchemaError`, so an `except pl.exceptions.SchemaError` clause catches
neither. -/

/-- The polars exceptions relevant to this pipeline. -/
inductive PolarsExc where
  | columnNotFound
  | schemaFieldNotFound
  | schemaErr
deriving DecidableEq

/-- `df.select(...)`: returns normally iff every required column is
present, otherwise raises `ColumnNotFoundError`. -/
def selectRaises (required present : List String) : Option PolarsExc :=
  if required.all (fun c => present.contains c) then none else some PolarsExc.columnNotFound

/-- The five columns `dim_station` selects. -/
def stationRequired : List String :=
  ["Station name", "Station address", "Latitude", "Longitude", "Number of station"]

/-- The columns `fact_ev_charger`'s `rename` maps. -/
def factRenamed : List String :=
  ["ObjId", "Number of plugs", "CHAdeMO", "CCS/SAE", "Tesla(Fast)"]

/-- Error behaviour of `dim_station(data)`: its `select` needs the five
station columns. -/
def dimStationRaises (present : List String) : Option PolarsExc :=
  selectRaises stationRequired present

/-- Error behaviour of `dim_operator(data)`: its `select` needs the
`Operator` column. -/
def dimOperatorRaises (present : List String) : Option PolarsExc :=
  selectRaises ["Operator"] present

/-- Error behaviour of `fact_ev_charger(...)`: the two joins need their
left keys, then `rename` needs the five charger columns (raising
`SchemaFieldNotFoundError` when one is absent). -/
def factRaises (present : List String) : Option PolarsExc :=
  match selectRaises ["Operator", "Station name"] present with
  | some e => some e
  | none =>
    if factRenamed.all (fun c => present.contains c) then none
    else some PolarsExc.schemaFieldNotFound

/-- `build_tables(data)` from build_table_files.py, tracking which
output CSVs exist afterwards.  The source computes `dim_station_data`
and `dim_operator_data` first, then writes `dim_station.csv` and
`dim_operator.csv`, and only then builds and writes
`fact_ev_charger.csv`; a failure in the fact stage therefore happens
*after* the two dimension files are on disk. -/
def build_tables (present : List String) : List String × Option PolarsExc :=
  match dimStationRaises present with
  | some e => ([], some e)
  | none =>
    match dimOperatorRaises present with
    | some e => ([], some e)
    | none =>
      match factRaises present with
      | some e =>
        (["data_file_output/dim_station.csv", "data_file_output/dim_operator.csv"], some e)
      | none =>
        (["data_file_output/dim_station.csv", "data_file_output/dim_operator.csv",
          "data_file_output/fact_ev_charger.csv"], none)

/-- What the operator observes of one `main()` run. -/
inductive MainOutcome where
  | completed
  | reportedError
  | uncaught (e : PolarsExc)
deriving DecidableEq

/-- Which pipeline exceptions `main`'s handlers catch: it has
`except FileNotFoundError` and `except pl.exceptions.SchemaError`
clauses only, and neither `ColumnNotFoundError` nor
`SchemaFieldNotFoundError` is a subclass of `SchemaError`. -/
def caughtByMain : PolarsExc → Bool
  | PolarsExc.schemaErr => true
  | PolarsExc.columnNotFound => false
  | PolarsExc.schemaFieldNotFound => false

/-- `main()` from main.py: read the input CSV (`none` models a missing
file, caught as `FileNotFoundError` and reported), run `build_tables`,
and catch only the exception classes named in the two `except`
clauses; anything else propagates out of `main` as an unhandled
fault. -/
def mainRun (input : Option (List String)) : MainOutcome :=
  match input with
  | none => MainOutcome.reportedError
  | some present =>
    match (build_tables present).2 with
    | none => MainOutcome.completed
    | some e =>
      if caughtByMain e then MainOutcome.reportedError else MainOutcome.uncaught e

/-! ### Helper lemmas about `dim_operator` -/

theorem dim_operator_eq_append (uniq : List (Option String)) :
    dim_operator uniq =
      (idxFrom 1 uniq).map (fun p => OperatorRow.mk (stripChars (fillNullNone p.2)) p.1) ++
        [OperatorRow.mk "Unknown" (uniq.length + 1)] := by
  unfold dim_operator
  rw [idxFrom_append, List.map_append]
  congr 1
  show [OperatorRow.mk (stripChars (fillNullNone (some "Unknown"))) (1 + uniq.length)] = _
  have h1 : stripChars (fillNullNone (some "Unknown")) = "Unknown" := by decide
  have h2 : 1 + uniq.length = uniq.length + 1 := by omega
  rw [h1, h2]

theorem dim_operator_length (uniq : List (Option String)) :
    (dim_operator uniq).length = uniq.length + 1 := by
  unfold dim_operator
  rw [List.length_map, idxFrom_length, List.length_append]
  rfl

theorem dim_operator_map_id (uniq : List (Option String)) :
    (dim_operator uniq).map OperatorRow.operator_id = List.range' 1 (uniq.length + 1) := by
  unfold dim_operator
  rw [List.map_map]
  have h : (OperatorRow.operator_id ∘
      fun p : Nat × Option String => OperatorRow.mk (stripChars (fillNullNone p.2)) p.1) =
      Prod.fst := by
    funext p
    rfl
  rw [h, idxFrom_map_fst, List.length_append]
  rfl

/-- Every operator-dimension cell went through `str.strip_chars()`, so
every stored name is a fixed point of stripping. -/
theorem dim_operator_names_stripped (uniq : List (Option String)) :
    ∀ d ∈ dim_operator uniq, stripChars d.operator_name = d.operator_name := by
  intro d hd
  unfold dim_operator at hd
  rcases List.mem_map.mp hd with ⟨p, _, hp⟩
  rw [← hp]
  exact stripChars_stripChars (fillNullNone p.2)

/-- Membership description of the rows of `dim_operator`. -/
theorem dim_operator_mem (uniq : List (Option String)) (d : OperatorRow)
    (hd : d ∈ dim_operator uniq) :
    (∃ v ∈ uniq, d.operator_name = stripChars (fillNullNone v)) ∨
      d.operator_name = "Unknown" := by
  unfold dim_operator at hd
  rcases List.mem_map.mp hd with ⟨p, hpmem, hp⟩
  have hsnd : p.2 ∈ uniq ++ [some "Unknown"] := idxFrom_mem_snd 1 _ p hpmem
  rcases List.mem_append.mp hsnd with h | h
  · left
    exact ⟨p.2, h, by rw [← hp]⟩
  · right
    have h2 : p.2 = some "Unknown" := by simpa using h
    rw [← hp, h2]
    show stripChars (fillNullNone (some "Unknown")) = "Unknown"
    decide

/-! ### Helper lemmas about unique results and the fact build -/

theorem isUniqueCol_length (col uniq : List (Option String))
    (h : isUniqueCol col uniq) : uniq.length = col.toFinset.card := by
  rcases h with ⟨hnd, hmem⟩
  have hfs : uniq.toFinset = col.toFinset := by
    ext x
    simp only [List.mem_toFinset]
    exact hmem x
  rw [← List.toFinset_card_of_nodup hnd, hfs]

theorem firstUnknownId_dim_operator (uniq : List (Option String)) :
    ∃ fid, firstUnknownId (dim_operator uniq) = some fid := by
  have hmem : OperatorRow.mk "Unknown" (uniq.length + 1) ∈ dim_operator uniq := by
    rw [dim_operator_eq_append]
    exact List.mem_append_right _ (by simp)
  have hfil : OperatorRow.mk "Unknown" (uniq.length + 1) ∈
      (dim_operator uniq).filter (fun d => d.operator_name == "Unknown") :=
    List.mem_filter.mpr ⟨hmem, by simp⟩
  unfold firstUnknownId
  cases hF : (dim_operator uniq).filter (fun d => d.operator_name == "Unknown") with
  | nil => rw [hF] at hfil; simp at hfil
  | cons a t =>
    exact ⟨a.operator_id, rfl⟩

theorem opIdsFor_mem (dimOp : List OperatorRow) (key : Option String) (oid : Option Nat)
    (h : oid ∈ opIdsFor dimOp key) :
    (oid = none ∧ ∀ d ∈ dimOp, ¬ some d.operator_name = key) ∨
      ∃ d ∈ dimOp, some d.operator_name = key ∧ oid = some d.operator_id := by
  unfold opIdsFor at h
  by_cases he : (dimOp.filter (fun d => some d.operator_name == key)).isEmpty
  · rw [if_pos he] at h
    left
    refine ⟨by simpa using h, ?_⟩
    intro d hd heq
    have hdf : d ∈ dimOp.filter (fun d => some d.operator_name == key) :=
      List.mem_filter.mpr ⟨hd, by simp [heq]⟩
    rw [List.isEmpty_iff] at he
    rw [he] at hdf
    simp at hdf
  · rw [if_neg he] at h
    right
    rcases List.mem_map.mp h with ⟨d, hdf, hdo⟩
    rcases List.mem_filter.mp hdf with ⟨hd, hdk⟩
    exact ⟨d, hd, by simpa using hdk, hdo.symm⟩

theorem opIdsFor_no_match (dimOp : List OperatorRow) (key : Option String)
    (h : ∀ d ∈ dimOp, ¬ some d.operator_name = key) : opIdsFor dimOp key = [none] := by
  unfold opIdsFor
  rw [if_pos]
  rw [List.isEmpty_iff, List.filter_eq_nil_iff]
  intro d hd
  simpa using h d hd

theorem rowCandidates_mem (r : RawRow) (dimOp : List OperatorRow)
    (dimSt : List StationRow) (c : FactRow) (h : c ∈ rowCandidates r dimOp dimSt) :
    ∃ oid ∈ opIdsFor dimOp r.operator, ∃ sid ∈ stIdsFor dimSt r.stationName,
      c = mkFactRow r sid oid := by
  unfold rowCandidates at h
  rcases List.mem_flatMap.mp h with ⟨oid, hoid, hc⟩
  rcases List.mem_map.mp hc with ⟨sid, hsid, hcm⟩
  exact ⟨oid, hoid, sid, hsid, hcm.symm⟩

theorem joinedCandidates_mem (data : List RawRow) (dimOp : List OperatorRow)
    (dimSt : List StationRow) (c : FactRow) (h : c ∈ joinedCandidates data dimOp dimSt) :
    ∃ r ∈ data, c ∈ rowCandidates r dimOp dimSt := by
  unfold joinedCandidates at h
  exact List.mem_flatMap.mp h

theorem sortByCharger_perm (l : List FactRow) : (sortByCharger l).Perm l :=
  List.perm_insertionSort factLe l

theorem sortByCharger_sorted (l : List FactRow) : List.Sorted factLe (sortByCharger l) :=
  List.sorted_insertionSort factLe l

/-- Where each output fact row comes from: some raw row with the same
charger id, whose `operator_id` is either the id of a matching operator
dimension row or, when no dimension row matches the raw key, the
first-`"Unknown"` lookup value. -/
theorem fact_row_source (data : List RawRow) (dimOp : List OperatorRow)
    (dimSt : List StationRow) (out : List FactRow)
    (hf : fact_ev_charger data dimOp dimSt out) :
    ∀ row ∈ out, ∃ r ∈ data, row.charger_id = r.objId ∧
      ((∃ d ∈ dimOp, some d.operator_name = r.operator ∧ row.operator_id = some d.operator_id) ∨
        ((∀ d ∈ dimOp, ¬ some d.operator_name = r.operator) ∧
          row.operator_id = firstUnknownId dimOp)) := by
  rcases hf with ⟨fid, u, hfid, hu, hout⟩
  intro row hrow
  rw [hout] at hrow
  have hru : row ∈ u := (sortByCharger_perm u).mem_iff.mp hrow
  have hrf : row ∈ filledCandidates data dimOp dimSt fid := hu.2.1 row hru
  rcases List.mem_map.mp hrf with ⟨c, hcj, hcf⟩
  rcases joinedCandidates_mem _ _ _ _ hcj with ⟨r, hr, hcr⟩
  rcases rowCandidates_mem _ _ _ _ hcr with ⟨oid, hoid, sid, hsid, hceq⟩
  refine ⟨r, hr, ?_, ?_⟩
  · rw [← hcf, hceq]
    rfl
  · rcases opIdsFor_mem dimOp r.operator oid hoid with ⟨hnone, hnm⟩ | ⟨d, hd, hdk, hdo⟩
    · right
      refine ⟨hnm, ?_⟩
      rw [← hcf, hceq, hnone, hfid]
      rfl
    · left
      refine ⟨d, hd, hdk, ?_⟩
      rw [← hcf, hceq, hdo]
      rfl

/-! ### Claim C2 -/

/-- C2: for every raw batch and every pair of dimension tables, any
fact table `fact_ev_charger` can produce contains no two rows with the
same `charger_id` and is sorted ascending by `charger_id`. -/
theorem C2_fact_unique_sorted (data : List RawRow) (dimOp : List OperatorRow)
    (dimSt : List StationRow) (out : List FactRow)
    (hf : fact_ev_charger data dimOp dimSt out) :
    (out.map FactRow.charger_id).Nodup ∧ List.Sorted factLe out := by
  rcases hf with ⟨fid, u, hfid, hu, hout⟩
  constructor
  · rw [hout]
    exact (((sortByCharger_perm u).map FactRow.charger_id).nodup_iff).mpr hu.1
  · rw [hout]
    exact sortByCharger_sorted u

/-- Witness for C2 at a concrete one-row batch. -/
theorem C2_fact_unique_sorted_witness :
    fact_ev_charger [RawRow.mk 1 (some "Acme") "S" "A" 10 20 1 4 1 2 1]
      [OperatorRow.mk "Acme" 1, OperatorRow.mk "Unknown" 2]
      [StationRow.mk 1 "S" 1 10 20]
      [FactRow.mk 1 (some 1) (some 1) 1 2 1 4] ∧
    (([FactRow.mk 1 (some 1) (some 1) 1 2 1 4].map FactRow.charger_id).Nodup ∧
      List.Sorted factLe [FactRow.mk 1 (some 1) (some 1) 1 2 1 4]) := by
  have hf : fact_ev_charger [RawRow.mk 1 (some "Acme") "S" "A" 10 20 1 4 1 2 1]
      [OperatorRow.mk "Acme" 1, OperatorRow.mk "Unknown" 2]
      [StationRow.mk 1 "S" 1 10 20]
      [FactRow.mk 1 (some 1) (some 1) 1 2 1 4] :=
    ⟨2, [FactRow.mk 1 (some 1) (some 1) 1 2 1 4], by decide, by decide, by decide⟩
  exact ⟨hf, C2_fact_unique_sorted _ _ _ _ hf⟩

/-! ### Claim C1 -/

/-- C1 (amended): for every raw batch and operator dimension built from
its `Operator` column by `dim_operator`, every row of every fact table
`fact_ev_charger` can produce has a non-null `operator_id`; it equals
the `operator_id` of a dimension row whose `operator_name` equals the
raw row's operator value when such a row exists, and otherwise equals
the `operator_id` of the *first* dimension row named `"Unknown"` (the
appended sentinel row only when no earlier row is also named
`"Unknown"`). -/
theorem C1_fact_operator_id_resolution (data : List RawRow)
    (uniq : List (Option String)) (dimSt : List StationRow) (out : List FactRow)
    (_hu : isUniqueCol (data.map RawRow.operator) uniq)
    (hf : fact_ev_charger data (dim_operator uniq) dimSt out) :
    ∀ row ∈ out, (∃ k, row.operator_id = some k) ∧
      ∃ r ∈ data, row.charger_id = r.objId ∧
        ((∃ d ∈ dim_operator uniq, some d.operator_name = r.operator ∧
            row.operator_id = some d.operator_id) ∨
          ((∀ d ∈ dim_operator uniq, ¬ some d.operator_name = r.operator) ∧
            row.operator_id = firstUnknownId (dim_operator uniq))) := by
  intro row hrow
  rcases fact_row_source data _ dimSt out hf row hrow with ⟨r, hr, hcid, hres⟩
  refine ⟨?_, r, hr, hcid, hres⟩
  rcases hres with ⟨d, _, _, hdo⟩ | ⟨_, hfo⟩
  · exact ⟨d.operator_id, hdo⟩
  · rcases firstUnknownId_dim_operator uniq with ⟨fid, hfid⟩
    exact ⟨fid, by rw [hfo, hfid]⟩

/-- Counterexample to C1 as stated: in the batch below the raw value
`"Unknown "` trims to `"Unknown"`, so the operator dimension is
`[⟨"Unknown", 1⟩, ⟨"X", 2⟩, ⟨"Unknown", 3⟩]` with the appended sentinel
row *last* (`operator_id = 3`).  The raw row with operator `" X "`
matches no dimension row, yet its fact row carries `operator_id = 1` —
the id of the first `"Unknown"`-named row, not the sentinel's id 3 —
because the fill value is looked up with `filter(operator_name ==
"Unknown")[0]`. -/
theorem C1_counterexample :
    isUniqueCol
      ([RawRow.mk 1 (some "Unknown ") "S" "A" 0 0 1 2 1 1 0,
        RawRow.mk 2 (some " X ") "S" "A" 0 0 1 2 1 1 0].map RawRow.operator)
      [some "Unknown ", some " X "] ∧
    dim_operator [some "Unknown ", some " X "] =
      [OperatorRow.mk "Unknown" 1, OperatorRow.mk "X" 2, OperatorRow.mk "Unknown" 3] ∧
    fact_ev_charger
      [RawRow.mk 1 (some "Unknown ") "S" "A" 0 0 1 2 1 1 0,
       RawRow.mk 2 (some " X ") "S" "A" 0 0 1 2 1 1 0]
      (dim_operator [some "Unknown ", some " X "])
      (dim_station
        [RawRow.mk 1 (some "Unknown ") "S" "A" 0 0 1 2 1 1 0,
         RawRow.mk 2 (some " X ") "S" "A" 0 0 1 2 1 1 0])
      [FactRow.mk 1 (some 1) (some 1) 1 1 0 2, FactRow.mk 2 (some 1) (some 1) 1 1 0 2] ∧
    (∀ d ∈ dim_operator [some "Unknown ", some " X "],
      ¬ some d.operator_name = some " X ") ∧
    ∃ row ∈ [FactRow.mk 1 (some 1) (some 1) 1 1 0 2, FactRow.mk 2 (some 1) (some 1) 1 1 0 2],
      row.charger_id = 2 ∧ row.operator_id = some 1 ∧ ¬ row.operator_id = some 3 := by
  refine ⟨⟨by decide, fun x => Iff.rfl⟩, by decide,
    ⟨1, [FactRow.mk 1 (some 1) (some 1) 1 1 0 2, FactRow.mk 2 (some 1) (some 1) 1 1 0 2],
      by decide, by decide, by decide⟩, by decide, by decide⟩

/-- Witness for C1 (amended) at a concrete one-row batch. -/
theorem C1_fact_operator_id_resolution_witness :
    (isUniqueCol ([RawRow.mk 1 (some "Acme") "S" "A" 10 20 1 4 1 2 1].map RawRow.operator)
        [some "Acme"] ∧
      fact_ev_charger [RawRow.mk 1 (some "Acme") "S" "A" 10 20 1 4 1 2 1]
        (dim_operator [some "Acme"])
        (dim_station [RawRow.mk 1 (some "Acme") "S" "A" 10 20 1 4 1 2 1])
        [FactRow.mk 1 (some 1) (some 1) 1 2 1 4]) ∧
    ∀ row ∈ [FactRow.mk 1 (some 1) (some 1) 1 2 1 4], (∃ k, row.operator_id = some k) ∧
      ∃ r ∈ [RawRow.mk 1 (some "Acme") "S" "A" 10 20 1 4 1 2 1],
        row.charger_id = r.objId ∧
        ((∃ d ∈ dim_operator [some "Acme"], some d.operator_name = r.operator ∧
            row.operator_id = some d.operator_id) ∨
          ((∀ d ∈ dim_operator [some "Acme"], ¬ some d.operator_name = r.operator) ∧
            row.operator_id = firstUnknownId (dim_operator [some "Acme"]))) := by
  have hu : isUniqueCol
      ([RawRow.mk 1 (some "Acme") "S" "A" 10 20 1 4 1 2 1].map RawRow.operator)
      [some "Acme"] := ⟨by decide, fun x => Iff.rfl⟩
  have hf : fact_ev_charger [RawRow.mk 1 (some "Acme") "S" "A" 10 20 1 4 1 2 1]
      (dim_operator [some "Acme"])
      (dim_station [RawRow.mk 1 (some "Acme") "S" "A" 10 20 1 4 1 2 1])
      [FactRow.mk 1 (some 1) (some 1) 1 2 1 4] :=
    ⟨2, [FactRow.mk 1 (some 1) (some 1) 1 2 1 4], by decide, by decide, by decide⟩
  exact ⟨⟨hu, hf⟩, C1_fact_operator_id_resolution _ _ _ _ hu hf⟩

/-! ### Claim C3 -/

/-- C3 (amended): if no raw operator value (after null-filling)
*trims* to `"Unknown"`, the operator dimension contains exactly one row
named `"Unknown"`; the appended sentinel row is last, its
`operator_id` is the distinct-operator count (nulls counted as one
value) plus 1, and no row has a larger id. -/
theorem C3_sentinel_unique_max (col uniq : List (Option String))
    (hu : isUniqueCol col uniq)
    (hnk : ∀ v ∈ col, ¬ stripChars (fillNullNone v) = "Unknown") :
    (dim_operator uniq).countP (fun d => d.operator_name == "Unknown") = 1 ∧
    (dim_operator uniq).getLast? =
      some (OperatorRow.mk "Unknown" (col.toFinset.card + 1)) ∧
    ∀ d ∈ dim_operator uniq, d.operator_id ≤ col.toFinset.card + 1 := by
  have hn : uniq.length = col.toFinset.card := isUniqueCol_length col uniq hu
  have hA : ∀ a ∈ (idxFrom 1 uniq).map
      (fun p => OperatorRow.mk (stripChars (fillNullNone p.2)) p.1),
      ¬ (a.operator_name == "Unknown") = true := by
    intro a ha
    rcases List.mem_map.mp ha with ⟨p, hpmem, hpa⟩
    have hv : p.2 ∈ col := (hu.2 p.2).mp (idxFrom_mem_snd 1 _ p hpmem)
    have hnv := hnk p.2 hv
    rw [← hpa]
    simpa using hnv
  refine ⟨?_, ?_, ?_⟩
  · rw [dim_operator_eq_append, List.countP_append]
    rw [List.countP_eq_zero.mpr hA]
    simp [List.countP_cons]
  · rw [dim_operator_eq_append, List.getLast?_concat, hn]
  · intro d hd
    have hid : d.operator_id ∈ (dim_operator uniq).map OperatorRow.operator_id :=
      List.mem_map_of_mem _ hd
    rw [dim_operator_map_id, List.mem_range'_1] at hid
    omega

/-- Counterexample to C3 as stated: the raw value `" Unknown"` does not
*equal* `"Unknown"`, yet the operator dimension contains two rows named
`"Unknown"` (the trimmed raw value and the appended sentinel), so
"exactly one row unless a raw operator value itself equals Unknown" is
false. -/
theorem C3_counterexample :
    isUniqueCol
      ([RawRow.mk 1 (some " Unknown") "S" "A" 0 0 1 2 1 1 0].map RawRow.operator)
      [some " Unknown"] ∧
    (¬ ∃ v ∈ [RawRow.mk 1 (some " Unknown") "S" "A" 0 0 1 2 1 1 0].map RawRow.operator,
      v = some "Unknown") ∧
    (dim_operator [some " Unknown"]).countP (fun d => d.operator_name == "Unknown") = 2 :=
  ⟨⟨by decide, fun x => Iff.rfl⟩, by decide, by decide⟩

/-- Witness for C3 (amended) at a concrete two-value column (one null). -/
theorem C3_sentinel_unique_max_witness :
    (isUniqueCol [some "Acme", none] [some "Acme", none] ∧
      ∀ v ∈ [some "Acme", (none : Option String)],
        ¬ stripChars (fillNullNone v) = "Unknown") ∧
    ((dim_operator [some "Acme", none]).countP
        (fun d => d.operator_name == "Unknown") = 1 ∧
      (dim_operator [some "Acme", none]).getLast? =
        some (OperatorRow.mk "Unknown"
          (([some "Acme", (none : Option String)].toFinset.card) + 1)) ∧
      ∀ d ∈ dim_operator [some "Acme", none],
        d.operator_id ≤ ([some "Acme", (none : Option String)].toFinset.card) + 1) := by
  have hu : isUniqueCol [some "Acme", none] [some "Acme", none] :=
    ⟨by decide, fun x => Iff.rfl⟩
  have hnk : ∀ v ∈ [some "Acme", (none : Option String)],
      ¬ stripChars (fillNullNone v) = "Unknown" := by decide
  exact ⟨⟨hu, hnk⟩, C3_sentinel_unique_max _ _ hu hnk⟩

/-! ### Claim C4 -/

theorem idxFrom_map_snd {α : Type} (b : Nat) (l : List α) :
    (idxFrom b l).map Prod.snd = l := by
  induction l generalizing b with
  | nil => rfl
  | cons a t ih =>
    show a :: (idxFrom (b + 1) t).map Prod.snd = a :: t
    rw [ih]

theorem dim_operator_map_name (uniq : List (Option String)) :
    (dim_operator uniq).map OperatorRow.operator_name =
      (uniq ++ [some "Unknown"]).map (fun v => stripChars (fillNullNone v)) := by
  unfold dim_operator
  rw [List.map_map]
  have h : (OperatorRow.operator_name ∘
      fun p : Nat × Option String => OperatorRow.mk (stripChars (fillNullNone p.2)) p.1) =
      (fun v => stripChars (fillNullNone v)) ∘ Prod.snd := by
    funext p
    rfl
  rw [h, ← List.map_map, idxFrom_map_snd]

/-- C4 (amended): two runs on the same input agree only up to the
choice `DataFrame.unique` makes.  For any two legal unique results of
the same operator column, the two operator dimensions carry the same
multiset of (trimmed) names and literally identical id columns
`[1, …, n+1]`; byte-identical tables are guaranteed only when the two
runs' unique results coincide, which the code does not force. -/
theorem C4_run_agreement (col u1 u2 : List (Option String))
    (h1 : isUniqueCol col u1) (h2 : isUniqueCol col u2) :
    ((dim_operator u1).map OperatorRow.operator_name).Perm
      ((dim_operator u2).map OperatorRow.operator_name) ∧
    (dim_operator u1).map OperatorRow.operator_id =
      (dim_operator u2).map OperatorRow.operator_id := by
  have hperm : u1.Perm u2 :=
    (List.perm_ext_iff_of_nodup h1.1 h2.1).mpr
      (fun a => (h1.2 a).trans (h2.2 a).symm)
  constructor
  · rw [dim_operator_map_name, dim_operator_map_name]
    exact (hperm.append_right [some "Unknown"]).map _
  · rw [dim_operator_map_id, dim_operator_map_id, hperm.length_eq]

/-- Counterexample to C4 as stated: on the two-row batch below both
`[some "A", some "B"]` and `[some "B", some "A"]` are legal results of
`unique(subset="Operator")` (polars guarantees no order without
`maintain_order=True`), and they yield *different* operator dimension
tables, so two runs on byte-identical input are not guaranteed
byte-identical output. -/
theorem C4_counterexample :
    isUniqueCol
      ([RawRow.mk 1 (some "A") "S" "A" 0 0 1 2 1 1 0,
        RawRow.mk 2 (some "B") "S" "A" 0 0 1 2 1 1 0].map RawRow.operator)
      [some "A", some "B"] ∧
    isUniqueCol
      ([RawRow.mk 1 (some "A") "S" "A" 0 0 1 2 1 1 0,
        RawRow.mk 2 (some "B") "S" "A" 0 0 1 2 1 1 0].map RawRow.operator)
      [some "B", some "A"] ∧
    ¬ dim_operator [some "A", some "B"] = dim_operator [some "B", some "A"] := by
  refine ⟨⟨by decide, fun x => Iff.rfl⟩, ⟨by decide, ?_⟩, by decide⟩
  intro x
  show x ∈ [some "B", some "A"] ↔ x ∈ [some "A", some "B"]
  simp only [List.mem_cons, List.not_mem_nil, or_false]
  exact Or.comm

/-- Witness for C4 (amended) at two concrete unique results. -/
theorem C4_run_agreement_witness :
    (isUniqueCol [some "A", some "B"] [some "A", some "B"] ∧
      isUniqueCol [some "A", some "B"] [some "B", some "A"]) ∧
    (((dim_operator [some "A", some "B"]).map OperatorRow.operator_name).Perm
        ((dim_operator [some "B", some "A"]).map OperatorRow.operator_name) ∧
      (dim_operator [some "A", some "B"]).map OperatorRow.operator_id =
        (dim_operator [some "B", some "A"]).map OperatorRow.operator_id) := by
  have h1 : isUniqueCol [some "A", some "B"] [some "A", some "B"] :=
    ⟨by decide, fun x => Iff.rfl⟩
  have h2 : isUniqueCol [some "A", some "B"] [some "B", some "A"] := by
    refine ⟨by decide, ?_⟩
    intro x
    show x ∈ [some "B", some "A"] ↔ x ∈ [some "A", some "B"]
    simp only [List.mem_cons, List.not_mem_nil, or_false]
    exact Or.comm
  exact ⟨⟨h1, h2⟩, C4_run_agreement _ _ _ h1 h2⟩

/-! ### Claim C5 -/

/-- C5 (amended): `dim_operator` reduces the operator column to one
row per distinct value — in whatever order `unique` returned, not
necessarily first-occurrence order — with the sentinel appended last,
and assigns `operator_id` as the 1-based row position: the id column
is literally `[1, …, n+1]` where `n` is the distinct-value count. -/
theorem C5_positional_ids (col uniq : List (Option String))
    (hu : isUniqueCol col uniq) :
    (dim_operator uniq).length = col.toFinset.card + 1 ∧
    (dim_operator uniq).map OperatorRow.operator_id =
      List.range' 1 (col.toFinset.card + 1) ∧
    ((dim_operator uniq).getLast?).map OperatorRow.operator_name = some "Unknown" := by
  have hn := isUniqueCol_length col uniq hu
  refine ⟨?_, ?_, ?_⟩
  · rw [dim_operator_length, hn]
  · rw [dim_operator_map_id, hn]
  · rw [dim_operator_eq_append, List.getLast?_concat]
    rfl

/-- Counterexample to C5 as stated: `[some "B", some "A"]` is a legal
`unique` result for the operator column of the batch below, but the
dimension built from it differs from the dimension the claim describes
(distinct values in first-occurrence order), so `dim_operator` does
not guarantee first-occurrence order. -/
theorem C5_counterexample :
    isUniqueCol
      ([RawRow.mk 1 (some "A") "S" "A" 0 0 1 2 1 1 0,
        RawRow.mk 2 (some "B") "S" "A" 0 0 1 2 1 1 0].map RawRow.operator)
      [some "B", some "A"] ∧
    distinctFirstSeen
      ([RawRow.mk 1 (some "A") "S" "A" 0 0 1 2 1 1 0,
        RawRow.mk 2 (some "B") "S" "A" 0 0 1 2 1 1 0].map RawRow.operator) =
      [some "A", some "B"] ∧
    ¬ dim_operator [some "B", some "A"] =
      dim_operator_firstSeen
        ([RawRow.mk 1 (some "A") "S" "A" 0 0 1 2 1 1 0,
          RawRow.mk 2 (some "B") "S" "A" 0 0 1 2 1 1 0].map RawRow.operator) := by
  refine ⟨⟨by decide, ?_⟩, by decide, by decide⟩
  intro x
  show x ∈ [some "B", some "A"] ↔ x ∈ [some "A", some "B"]
  simp only [List.mem_cons, List.not_mem_nil, or_false]
  exact Or.comm

/-- Witness for C5 (amended) at a concrete unique result. -/
theorem C5_positional_ids_witness :
    isUniqueCol [some "A", some "B"] [some "B", some "A"] ∧
    ((dim_operator [some "B", some "A"]).length =
        ([some "A", some "B"] : List (Option String)).toFinset.card + 1 ∧
      (dim_operator [some "B", some "A"]).map OperatorRow.operator_id =
        List.range' 1 (([some "A", some "B"] : List (Option String)).toFinset.card + 1) ∧
      ((dim_operator [some "B", some "A"]).getLast?).map OperatorRow.operator_name =
        some "Unknown") := by
  have hu : isUniqueCol [some "A", some "B"] [some "B", some "A"] := by
    refine ⟨by decide, ?_⟩
    intro x
    show x ∈ [some "B", some "A"] ↔ x ∈ [some "A", some "B"]
    simp only [List.mem_cons, List.not_mem_nil, or_false]
    exact Or.comm
  exact ⟨hu, C5_positional_ids _ _ hu⟩

/-! ### Claim C6 -/

/-- C6 (amended): `dim_station` performs no deduplication: it has
exactly one row per *raw input row*, in input order, row `i` carrying
`station_id = i + 1` and the station attributes of raw row `i`
(duplicate station names therefore yield duplicate dimension rows). -/
theorem C6_station_rows (data : List RawRow) :
    (dim_station data).length = data.length ∧
    ∀ i, (h : i < data.length) →
      (dim_station data)[i]? = some (StationRow.mk (i + 1)
        (data.get ⟨i, h⟩).stationName (data.get ⟨i, h⟩).numStation
        (data.get ⟨i, h⟩).latitude (data.get ⟨i, h⟩).longitude) := by
  constructor
  · unfold dim_station
    rw [List.length_map, idxFrom_length]
  · intro i h
    unfold dim_station
    rw [List.getElem?_map, idxFrom_getElem?, List.getElem?_eq_getElem h]
    have h1 : 1 + i = i + 1 := by omega
    simp [h1]

/-- Counterexample to C6 as stated: a batch of two rows sharing the
station name `"S"` has one distinct station name but the station
dimension has two rows (both named `"S"`), so "one row per distinct
station_name" is false. -/
theorem C6_counterexample :
    (dim_station [RawRow.mk 1 (some "A") "S" "A" 0 0 1 2 1 1 0,
      RawRow.mk 2 (some "B") "S" "A" 0 0 1 2 1 1 0]).length = 2 ∧
    ([RawRow.mk 1 (some "A") "S" "A" 0 0 1 2 1 1 0,
      RawRow.mk 2 (some "B") "S" "A" 0 0 1 2 1 1 0].map RawRow.stationName).toFinset.card = 1 ∧
    (dim_station [RawRow.mk 1 (some "A") "S" "A" 0 0 1 2 1 1 0,
      RawRow.mk 2 (some "B") "S" "A" 0 0 1 2 1 1 0]).map StationRow.station_name =
      ["S", "S"] := by decide

/-! ### Claim C7 -/

theorem dim_operator_getElem? (uniq : List (Option String)) (i : Nat)
    (hi : i < uniq.length) :
    (dim_operator uniq)[i]? =
      some (OperatorRow.mk (stripChars (fillNullNone (uniq.get ⟨i, hi⟩))) (i + 1)) := by
  unfold dim_operator
  rw [List.getElem?_map, idxFrom_getElem?, List.getElem?_append_left hi,
    List.getElem?_eq_getElem hi]
  have h1 : 1 + i = i + 1 := by omega
  simp [h1]

/-- C7: two raw operator values that differ only by surrounding
whitespace (equal after trimming, unequal as strings) both survive
deduplication — it happens before trimming — and yield two dimension
rows with different `operator_id` values but the same trimmed
`operator_name`. -/
theorem C7_whitespace_distinct_rows (col uniq : List (Option String)) (s t : String)
    (hu : isUniqueCol col uniq) (hs : some s ∈ col) (ht : some t ∈ col)
    (hne : ¬ s = t) (htrim : stripChars s = stripChars t) :
    ∃ r1 ∈ dim_operator uniq, ∃ r2 ∈ dim_operator uniq,
      ¬ r1.operator_id = r2.operator_id ∧
      r1.operator_name = stripChars s ∧ r2.operator_name = stripChars s := by
  have hsu : some s ∈ uniq := (hu.2 _).mpr hs
  have htu : some t ∈ uniq := (hu.2 _).mpr ht
  rcases List.getElem_of_mem hsu with ⟨i, hi, hgi⟩
  rcases List.getElem_of_mem htu with ⟨j, hj, hgj⟩
  have hij : ¬ i = j := by
    intro he
    subst he
    exact hne (Option.some.inj (hgi.symm.trans hgj))
  have hli : i < (dim_operator uniq).length := by
    rw [dim_operator_length]
    omega
  have hlj : j < (dim_operator uniq).length := by
    rw [dim_operator_length]
    omega
  have h1 : (dim_operator uniq).get ⟨i, hli⟩ = OperatorRow.mk (stripChars s) (i + 1) := by
    have hq := dim_operator_getElem? uniq i hi
    rw [List.getElem?_eq_getElem hli] at hq
    have hgi2 : uniq.get ⟨i, hi⟩ = some s := hgi
    rw [hgi2] at hq
    exact Option.some.inj hq
  have h2 : (dim_operator uniq).get ⟨j, hlj⟩ = OperatorRow.mk (stripChars t) (j + 1) := by
    have hq := dim_operator_getElem? uniq j hj
    rw [List.getElem?_eq_getElem hlj] at hq
    have hgj2 : uniq.get ⟨j, hj⟩ = some t := hgj
    rw [hgj2] at hq
    exact Option.some.inj hq
  refine ⟨(dim_operator uniq).get ⟨i, hli⟩, List.get_mem _ _ hli,
    (dim_operator uniq).get ⟨j, hlj⟩, List.get_mem _ _ hlj, ?_, ?_, ?_⟩
  · rw [h1, h2]
    show ¬ i + 1 = j + 1
    omega
  · rw [h1]
  · rw [h2, ← htrim]

/-- Witness for C7 at the spec's own example, `"Acme"` and `"Acme "`. -/
theorem C7_whitespace_distinct_rows_witness :
    (isUniqueCol [some "Acme", some "Acme "] [some "Acme", some "Acme "] ∧
      some "Acme" ∈ [some "Acme", some "Acme "] ∧
      some "Acme " ∈ [some "Acme", some "Acme "] ∧
      ¬ "Acme" = "Acme " ∧ stripChars "Acme" = stripChars "Acme ") ∧
    ∃ r1 ∈ dim_operator [some "Acme", some "Acme "],
      ∃ r2 ∈ dim_operator [some "Acme", some "Acme "],
        ¬ r1.operator_id = r2.operator_id ∧
        r1.operator_name = stripChars "Acme" ∧ r2.operator_name = stripChars "Acme" := by
  have hu : isUniqueCol [some "Acme", some "Acme "] [some "Acme", some "Acme "] :=
    ⟨by decide, fun x => Iff.rfl⟩
  exact ⟨⟨hu, by decide, by decide, by decide, by decide⟩,
    C7_whitespace_distinct_rows _ _ "Acme" "Acme " hu (by decide) (by decide)
      (by decide) (by decide)⟩

/-! ### Claim C10 -/

/-- C10 (amended): a raw operator value with surrounding whitespace
matches no operator-dimension row (all stored names are trimmed), so
every fact candidate of that raw row gets a null `operator_id` and is
then filled with the first-`"Unknown"` lookup id — which is the
appended sentinel's id unless an earlier dimension row is also named
`"Unknown"`, in which case it can even be the id of the row built from
the raw value itself. -/
theorem C10_whitespace_no_match (data : List RawRow) (uniq : List (Option String))
    (dimSt : List StationRow) (r : RawRow) (s : String)
    (_hu : isUniqueCol (data.map RawRow.operator) uniq)
    (_hr : r ∈ data) (hop : r.operator = some s) (hw : ¬ stripChars s = s) :
    (∀ d ∈ dim_operator uniq, ¬ some d.operator_name = r.operator) ∧
    ∃ fid, firstUnknownId (dim_operator uniq) = some fid ∧
      ∀ c ∈ rowCandidates r (dim_operator uniq) dimSt,
        (fillOperator fid c).operator_id = some fid := by
  have hnm : ∀ d ∈ dim_operator uniq, ¬ some d.operator_name = r.operator := by
    intro d hd heq
    rw [hop] at heq
    have hdn : d.operator_name = s := Option.some.inj heq
    have hstr := dim_operator_names_stripped uniq d hd
    rw [hdn] at hstr
    exact hw hstr
  refine ⟨hnm, ?_⟩
  rcases firstUnknownId_dim_operator uniq with ⟨fid, hfid⟩
  refine ⟨fid, hfid, ?_⟩
  intro c hc
  rcases rowCandidates_mem _ _ _ _ hc with ⟨oid, hoid, sid, hsid, hceq⟩
  rw [opIdsFor_no_match _ _ hnm] at hoid
  have hnone : oid = none := by simpa using hoid
  rw [hceq, hnone]
  rfl

/-- Counterexample to C10 as stated: for the one-row batch with raw
operator `" Unknown"`, the dimension is
`[⟨"Unknown", 1⟩, ⟨"Unknown", 2⟩]`; row 1 is the row built from that
raw value itself and row 2 is the appended sentinel.  The raw value
matches neither (both stored names are trimmed), and the fill lookup
returns the id of the *first* `"Unknown"` row, so the fact row carries
`operator_id = 1` — the id of its own dimension row, not the
sentinel's id 2. -/
theorem C10_counterexample :
    isUniqueCol
      ([RawRow.mk 1 (some " Unknown") "S" "A" 0 0 1 2 1 1 0].map RawRow.operator)
      [some " Unknown"] ∧
    dim_operator [some " Unknown"] =
      [OperatorRow.mk "Unknown" 1, OperatorRow.mk "Unknown" 2] ∧
    fact_ev_charger [RawRow.mk 1 (some " Unknown") "S" "A" 0 0 1 2 1 1 0]
      (dim_operator [some " Unknown"])
      (dim_station [RawRow.mk 1 (some " Unknown") "S" "A" 0 0 1 2 1 1 0])
      [FactRow.mk 1 (some 1) (some 1) 1 1 0 2] ∧
    ∃ row ∈ [FactRow.mk 1 (some 1) (some 1) 1 1 0 2],
      row.operator_id = some 1 ∧ ¬ row.operator_id = some 2 := by
  refine ⟨⟨by decide, fun x => Iff.rfl⟩, by decide,
    ⟨1, [FactRow.mk 1 (some 1) (some 1) 1 1 0 2], by decide, by decide, by decide⟩,
    by decide⟩

/-- Witness for C10 (amended) at a concrete batch with operator `" X "`. -/
theorem C10_whitespace_no_match_witness :
    (isUniqueCol ([RawRow.mk 1 (some " X ") "S" "A" 0 0 1 2 1 1 0].map RawRow.operator)
        [some " X "] ∧
      RawRow.mk 1 (some " X ") "S" "A" 0 0 1 2 1 1 0 ∈
        [RawRow.mk 1 (some " X ") "S" "A" 0 0 1 2 1 1 0] ∧
      (RawRow.mk 1 (some " X ") "S" "A" 0 0 1 2 1 1 0).operator = some " X " ∧
      ¬ stripChars " X " = " X ") ∧
    ((∀ d ∈ dim_operator [some " X "],
        ¬ some d.operator_name = (RawRow.mk 1 (some " X ") "S" "A" 0 0 1 2 1 1 0).operator) ∧
      ∃ fid, firstUnknownId (dim_operator [some " X "]) = some fid ∧
        ∀ c ∈ rowCandidates (RawRow.mk 1 (some " X ") "S" "A" 0 0 1 2 1 1 0)
            (dim_operator [some " X "])
            (dim_station [RawRow.mk 1 (some " X ") "S" "A" 0 0 1 2 1 1 0]),
          (fillOperator fid c).operator_id = some fid) := by
  have hu : isUniqueCol
      ([RawRow.mk 1 (some " X ") "S" "A" 0 0 1 2 1 1 0].map RawRow.operator)
      [some " X "] := ⟨by decide, fun x => Iff.rfl⟩
  exact ⟨⟨hu, by decide, by decide, by decide⟩,
    C10_whitespace_no_match _ _ _ _ " X " hu (by decide) (by decide) (by decide)⟩

/-! ### Claim C8 -/

/-- C8 (amended): a failing run never writes `fact_ev_charger.csv`,
and it leaves *no* files only when the failure occurs while computing
one of the dimension tables (before any write): a failure in the fact
stage happens after `dim_station.csv` and `dim_operator.csv` are
already on disk, so those two files survive as partial output. -/
theorem C8_partial_output (present : List String)
    (hfail : ¬ (build_tables present).2 = none) :
    ¬ "data_file_output/fact_ev_charger.csv" ∈ (build_tables present).1 ∧
    ((build_tables present).1 = [] ∨
      (build_tables present).1 =
        ["data_file_output/dim_station.csv", "data_file_output/dim_operator.csv"]) := by
  unfold build_tables at hfail ⊢
  cases h1 : dimStationRaises present with
  | some e1 => simp [h1]
  | none =>
    cases h2 : dimOperatorRaises present with
    | some e2 => simp [h1, h2]
    | none =>
      cases h3 : factRaises present with
      | some e3 =>
        simp only [h1, h2, h3]
        exact ⟨by decide, Or.inr trivial⟩
      | none =>
        simp only [h1, h2, h3] at hfail
        exact absurd trivial hfail

/-- Counterexample to C8 as stated: with every station column and
`Operator` present but `ObjId` (and the other charger columns) absent,
both dimension stages succeed and their CSVs are written, then the
fact stage raises — the run fails but two output files exist, so a
failed run is not free of partial output. -/
theorem C8_counterexample :
    ((build_tables ["Station name", "Station address", "Latitude", "Longitude",
        "Number of station", "Operator"]).2).isSome = true ∧
    ¬ (build_tables ["Station name", "Station address", "Latitude", "Longitude",
        "Number of station", "Operator"]).1 = [] ∧
    (build_tables ["Station name", "Station address", "Latitude", "Longitude",
        "Number of station", "Operator"]).1 =
      ["data_file_output/dim_station.csv", "data_file_output/dim_operator.csv"] := by
  decide

/-- Witness for C8 (amended): an empty input schema makes the very
first stage fail, and indeed no file is written. -/
theorem C8_partial_output_witness :
    ¬ (build_tables ([] : List String)).2 = none ∧
    (¬ "data_file_output/fact_ev_charger.csv" ∈ (build_tables ([] : List String)).1 ∧
      ((build_tables ([] : List String)).1 = [] ∨
        (build_tables ([] : List String)).1 =
          ["data_file_output/dim_station.csv", "data_file_output/dim_operator.csv"])) := by
  have hfail : ¬ (build_tables ([] : List String)).2 = none := by decide
  exact ⟨hfail, C8_partial_output [] hfail⟩

/-! ### Claim C9 -/

/-- C9: the code lets a schema failure escape `main`.  On an input CSV
whose header lacks the `"Station name"` column, `dim_station`'s
`select` raises polars `ColumnNotFoundError`; `main` catches only
`FileNotFoundError` and `pl.exceptions.SchemaError`, and
`ColumnNotFoundError` is a sibling of `SchemaError` (both direct
subclasses of `PolarsError`), so the error propagates out of `main` as
an unhandled fault — contradicting the claim (and `main`'s own
docstring, which says schema issues are handled). -/
theorem C9_uncaught_schema_failure :
    mainRun (some ["Operator", "ObjId", "Number of plugs", "CHAdeMO", "CCS/SAE",
      "Tesla(Fast)"]) = MainOutcome.uncaught PolarsExc.columnNotFound ∧
    caughtByMain PolarsExc.columnNotFound = false ∧
    mainRun none = MainOutcome.reportedError := by
  decide
